import Mathlib

/-!
# Order Fulfillment & Ledger-Based Wallet Engine — verified shallow embedding

This file embeds the checkout / wallet / order-payment core of the
`taptosell-golang` repository in Lean 4 and proves properties of it.

Modelling conventions:
* Monetary values (Go `float64` columns holding decimal currency) are modelled
  exactly as integers (`Int`, think minor units); quantities, stock counts,
  identifiers and timestamps are `Int` as well.  Every operation the core
  performs on money — addition, negation, multiplication by a quantity,
  order comparison — is parametric in the numeric type, so nothing below
  depends on this choice.
* Each database table is a list of rows; a handler is a pure function from a
  database state to an outcome together with the post-transaction state.
  A handler that returns an error leaves the state unchanged: this is the
  translation of `defer tx.Rollback()` plus the early `return`s in the source.
* `FOR UPDATE` row locks taken by a transaction are recorded in an explicit
  list of `LockedRow` values, one entry per lock-acquiring query in the source.

Sources (file, function):
* `internal/handlers/order_handlers.go` — `Checkout`, `PayOrder`.
* `internal/handlers/cart_handlers.go` — `AddToCart`, `getOrCreateCartID`.
* wallet handlers (two revisions in the snapshot) — `GetWalletBalance`,
  `AddWalletTransaction` (current revision, computes `balance_after`) and the
  legacy revision `AddWalletTransactionLegacy` (normalizes only kind "order").
* `cmd/api/main.go` — background sweeper loop (body of `ProcessOverdueOrders`
  is not in the snapshot; it is modelled from the spec, see below).
-/

namespace TapToSell

/-- Row of the `products` table (the fields the core touches). -/
structure Product where
  id : Int
  status : String
  price_to_tts : Int
  stock_quantity : Int
deriving Repr, DecidableEq

/-- Row of the `product_variants` table (the fields the core touches). -/
structure ProductVariant where
  id : Int
  product_id : Int
  price_to_tts : Int
  stock_quantity : Int
deriving Repr, DecidableEq

/-- Row of the `carts` table. -/
structure Cart where
  id : Int
  user_id : Int
deriving Repr, DecidableEq

/-- Row of the `cart_items` table. `variant_id` is a nullable column. -/
structure CartItem where
  cart_id : Int
  product_id : Int
  variant_id : Option Int
  quantity : Int
deriving Repr, DecidableEq

/-- Row of the `orders` table. -/
structure Order where
  id : Int
  user_id : Int
  status : String
  total : Int
  created_at : Int
  updated_at : Int
deriving Repr, DecidableEq

/-- Row of the `order_items` table: exactly the columns the checkout INSERT
lists — `(order_id, product_id, quantity, unit_price, created_at)`.
There is no variant column in the INSERT nor in `models.OrderItem`. -/
structure OrderItem where
  order_id : Int
  product_id : Int
  quantity : Int
  unit_price : Int
  created_at : Int
deriving Repr, DecidableEq

/-- Row of the `wallet_transactions` table as written by the current
`AddWalletTransaction` (columns `user_id, type, status, amount, balance_after,
notes, created_at`). -/
structure WalletTransaction where
  user_id : Int
  txType : String
  status : String
  amount : Int
  balance_after : Int
  notes : String
deriving Repr, DecidableEq

/-- Row shape written by the legacy `AddWalletTransaction` revision
(columns `user_id, type, amount, details, created_at`). -/
structure WalletTransactionLegacy where
  user_id : Int
  txType : String
  amount : Int
  details : String
deriving Repr, DecidableEq

/-- The database state visible to the core. `next_order_id` / `next_cart_id`
model the AUTO_INCREMENT counters consumed by `LastInsertId`. -/
structure DBState where
  products : List Product
  product_variants : List ProductVariant
  carts : List Cart
  cart_items : List CartItem
  orders : List Order
  order_items : List OrderItem
  wallet_transactions : List WalletTransaction
  next_order_id : Int
  next_cart_id : Int
deriving Repr, DecidableEq

/-- A row lock acquired by a `FOR UPDATE` clause inside a transaction. -/
inductive LockedRow where
  | productRow (id : Int)
  | orderRow (id : Int)
  | walletOfUser (userID : Int)
deriving Repr, DecidableEq

/-! ## Wallet core functions -/

/-- `GetWalletBalance` (both wallet revisions):
`SELECT SUM(amount) FROM wallet_transactions WHERE user_id = ?`,
with `NULL` (no rows) read as `0.0`. -/
def GetWalletBalance (st : DBState) (userID : Int) : Int :=
  (((st.wallet_transactions.filter (fun t => t.user_id = userID)).map
    (fun t => t.amount)).sum)

/-- `AddWalletTransaction` (current revision): re-derives the balance with
`SELECT SUM(amount) ... FOR UPDATE`, then inserts one row with
`status = "completed"` and `balance_after = currentBalance + amount`.
No sign normalization of any kind is performed. -/
def AddWalletTransaction (st : DBState) (userID : Int) (txType : String)
    (amount : Int) (notes : String) : DBState :=
  let currentBalance :=
    (((st.wallet_transactions.filter (fun t => t.user_id = userID)).map
      (fun t => t.amount)).sum)
  let newBalance := currentBalance + amount
  { st with wallet_transactions :=
      st.wallet_transactions ++
        [⟨userID, txType, "completed", amount, newBalance, notes⟩] }

/-- `AddWalletTransaction` (legacy revision): the only safeguard is
`if txType == "order" && amount > 0 { amount = -amount }`; the insert has no
`balance_after` column.  Modelled as producing the row it inserts. -/
def AddWalletTransactionLegacy (userID : Int) (txType : String)
    (amount : Int) (details : String) : WalletTransactionLegacy :=
  let amount := if txType = "order" ∧ 0 < amount then -amount else amount
  ⟨userID, txType, amount, details⟩

/-- Spec-side definition, for comparison only (it follows §4.2 of the spec,
not the source): the `balanceAfter` of the user's most recent ledger entry,
`0` when the user has no entries. -/
def specLatestBalanceAfter (st : DBState) (userID : Int) : Int :=
  ((st.wallet_transactions.filter (fun t => t.user_id = userID)).getLast?).elim 0
    (fun t => t.balance_after)

/-! ## Checkout (`order_handlers.go`, `Checkout`) -/

/-- Helper struct of the source: one row of the cart-items query. -/
structure CartItemData where
  ProductID : Int
  Quantity : Int
  Price : Int
  Stock : Int
deriving Repr, DecidableEq

/-- The cart-items query of `Checkout`:
`SELECT ci.product_id, ci.quantity, p.price_to_tts, p.stock_quantity
 FROM cart_items ci JOIN products p ON ci.product_id = p.id
 WHERE ci.cart_id = ? AND p.status = 'published' FOR UPDATE`.
The join key is the base product id; `ci.variant_id` is not referenced and
the `product_variants` table is not touched. -/
def checkoutCartItemsQuery (st : DBState) (cartID : Int) : List CartItemData :=
  (st.cart_items.filter (fun ci => ci.cart_id = cartID)).filterMap (fun ci =>
    (st.products.find? (fun p => p.id = ci.product_id ∧ p.status = "published")).map
      (fun p => ⟨ci.product_id, ci.quantity, p.price_to_tts, p.stock_quantity⟩))

/-- The row-scan loop of `Checkout`: walks the fetched rows in order, fails at
the first row with `item.Stock < item.Quantity` (naming that row's product id),
otherwise accumulates `totalOrderCost += item.Price * item.Quantity` and
collects the rows into `cartItems`. -/
def scanCartItems : List CartItemData → Except Int (List CartItemData × Int)
  | [] => Except.ok ([], 0)
  | item :: rest =>
    if item.Stock < item.Quantity then Except.error item.ProductID
    else
      match scanCartItems rest with
      | Except.error pid => Except.error pid
      | Except.ok (items, total) =>
          Except.ok (item :: items, item.Price * item.Quantity + total)

/-- `UPDATE products SET stock_quantity = stock_quantity - ? WHERE id = ?`. -/
def deductStock (ps : List Product) (pid qty : Int) : List Product :=
  ps.map (fun p =>
    if p.id = pid then { p with stock_quantity := p.stock_quantity - qty } else p)

/-- The per-item body of `Checkout`'s write loop: insert the snapshot row into
`order_items`; if the order is `processing`, deduct the item's stock. -/
def checkoutWriteItem (orderStatus : String) (orderID now : Int)
    (acc : DBState) (item : CartItemData) : DBState :=
  let acc1 := { acc with order_items :=
    acc.order_items ++ [⟨orderID, item.ProductID, item.Quantity, item.Price, now⟩] }
  if orderStatus = "processing" then
    { acc1 with products := deductStock acc1.products item.ProductID item.Quantity }
  else acc1

/-- The whole write loop of `Checkout` (step 7 of the handler). -/
def checkoutWriteItems (orderStatus : String) (orderID now : Int)
    (items : List CartItemData) (st : DBState) : DBState :=
  items.foldl (checkoutWriteItem orderStatus orderID now) st

/-- Outcome of the `Checkout` handler (HTTP responses of the source). -/
inductive CheckoutOutcome where
  /-- 201 with `{orderId, status, totalPaid}`. -/
  | ok (orderId : Int) (status : String) (totalPaid : Int)
  /-- 400 "Your cart is empty" (no cart row for the user). -/
  | emptyCart
  /-- 400 "Your cart contains no published products". -/
  | noPublishedItems
  /-- 409 "Not enough stock for product ID %d". -/
  | insufficientStock (productId : Int)
deriving Repr, DecidableEq

/-- Result of a transactional handler: outcome, post-state (equal to the
pre-state when the transaction rolled back) and the row locks it acquired. -/
structure TxResult (α : Type) where
  outcome : α
  state : DBState
  locks : List LockedRow
deriving Repr, DecidableEq

/-- `Checkout` (`POST /v1/dropshipper/checkout`), one serializable
transaction.  `now` stands for `time.Now()`.  Steps mirror the source:
find cart → fetch-and-lock published cart rows → stock scan + total →
`SELECT SUM(amount)` balance → pick status → insert order → write loop →
ledger movement of kind "order" when `processing` → clear cart → commit. -/
def Checkout (st : DBState) (dropshipperID now : Int) : TxResult CheckoutOutcome :=
  match st.carts.find? (fun ct => ct.user_id = dropshipperID) with
  | none => ⟨CheckoutOutcome.emptyCart, st, []⟩
  | some cart =>
    let cartID := cart.id
    let rowsFetched := checkoutCartItemsQuery st cartID
    let locks := rowsFetched.map (fun r => LockedRow.productRow r.ProductID)
    match scanCartItems rowsFetched with
    | Except.error pid => ⟨CheckoutOutcome.insufficientStock pid, st, locks⟩
    | Except.ok (cartItems, totalOrderCost) =>
      if cartItems = [] then ⟨CheckoutOutcome.noPublishedItems, st, locks⟩
      else
        let walletBalance := GetWalletBalance st dropshipperID
        let orderStatus := if walletBalance < totalOrderCost then "on-hold" else "processing"
        let orderID := st.next_order_id
        let st1 := { st with
          orders := st.orders ++ [⟨orderID, dropshipperID, orderStatus, totalOrderCost, now, now⟩],
          next_order_id := st.next_order_id + 1 }
        let st2 := checkoutWriteItems orderStatus orderID now cartItems st1
        let st3 :=
          if orderStatus = "processing" then
            AddWalletTransaction st2 dropshipperID "order" (-totalOrderCost)
              ("Payment for Order ID " ++ toString orderID)
          else st2
        let st4 := { st3 with cart_items :=
          st3.cart_items.filter (fun ci => ¬ ci.cart_id = cartID) }
        let locks' :=
          if orderStatus = "processing" then locks ++ [LockedRow.walletOfUser dropshipperID]
          else locks
        ⟨CheckoutOutcome.ok orderID orderStatus totalOrderCost, st4, locks'⟩

/-- The cart lines `Checkout` actually resolves for a user: the published-join
rows of the user's cart, `[]` when the user has no cart. -/
def checkoutLines (st : DBState) (dropshipperID : Int) : List CartItemData :=
  match st.carts.find? (fun ct => ct.user_id = dropshipperID) with
  | none => []
  | some cart => checkoutCartItemsQuery st cart.id

/-! ## PayOrder (`order_handlers.go`, `PayOrder`) -/

/-- Helper struct of the source: one row of `PayOrder`'s items query. -/
structure ItemStockCheck where
  ProductID : Int
  Quantity : Int
  Stock : Int
deriving Repr, DecidableEq

/-- `PayOrder`'s items query:
`SELECT oi.product_id, oi.quantity, p.stock_quantity
 FROM order_items oi JOIN products p ON oi.product_id = p.id
 WHERE oi.order_id = ?` — note: no `FOR UPDATE` clause. -/
def payOrderItemsQuery (st : DBState) (orderID : Int) : List ItemStockCheck :=
  (st.order_items.filter (fun oi => oi.order_id = orderID)).filterMap (fun oi =>
    (st.products.find? (fun p => p.id = oi.product_id)).map
      (fun p => ⟨oi.product_id, oi.quantity, p.stock_quantity⟩))

/-- `PayOrder`'s stock check loop: first item with `Stock < Quantity`. -/
def firstOutOfStock : List ItemStockCheck → Option Int
  | [] => none
  | item :: rest =>
    if item.Stock < item.Quantity then some item.ProductID else firstOutOfStock rest

/-- Outcome of the `PayOrder` handler. -/
inductive PayOrderOutcome where
  /-- 200 "Payment successful", `new_status = "processing"`. -/
  | ok
  /-- 404 "Order not found". -/
  | notFound
  /-- 400 "Order is not in 'on-hold' status". -/
  | invalidState
  /-- 402 "Insufficient wallet balance". -/
  | insufficientBalance
  /-- 409 "Product ID %d is now out of stock". -/
  | outOfStock (productId : Int)
deriving Repr, DecidableEq

/-- `PayOrder` (`POST /v1/dropshipper/orders/:id/pay`), one transaction:
lock + fetch the order (`FOR UPDATE`, scoped to the caller) → status must be
"on-hold" → balance check against the order's frozen `total` → fetch order
items joined with current stock (plain SELECT, no lock) → stock check →
deduct stock → ledger movement of kind "order_payment" for `-total` →
status to "processing" → commit. -/
def PayOrder (st : DBState) (dropshipperID orderID now : Int) : TxResult PayOrderOutcome :=
  match st.orders.find? (fun o => o.id = orderID ∧ o.user_id = dropshipperID) with
  | none => ⟨PayOrderOutcome.notFound, st, []⟩
  | some o =>
    let locks := [LockedRow.orderRow orderID]
    if o.status = "on-hold" then
      let totalAmount := o.total
      let balance := GetWalletBalance st dropshipperID
      if balance < totalAmount then ⟨PayOrderOutcome.insufficientBalance, st, locks⟩
      else
        let itemsToCheck := payOrderItemsQuery st orderID
        match firstOutOfStock itemsToCheck with
        | some pid => ⟨PayOrderOutcome.outOfStock pid, st, locks⟩
        | none =>
          let ps1 := itemsToCheck.foldl
            (fun ps item => deductStock ps item.ProductID item.Quantity) st.products
          let st1 := { st with products := ps1 }
          let st2 := AddWalletTransaction st1 dropshipperID "order_payment" (-totalAmount)
            ("Payment for Order #" ++ toString orderID)
          let st3 := { st2 with orders := st2.orders.map (fun oo =>
            if oo.id = orderID then { oo with status := "processing", updated_at := now } else oo) }
          ⟨PayOrderOutcome.ok, st3, locks ++ [LockedRow.walletOfUser dropshipperID]⟩
    else ⟨PayOrderOutcome.invalidState, st, locks⟩

/-! ## AddToCart (`cart_handlers.go`, `AddToCart` and `getOrCreateCartID`) -/

/-- JSON input of `AddToCart` (`product_id`, optional `variant_id`,
`quantity` with binding `gt=0`). -/
structure AddToCartInput where
  product_id : Int
  variant_id : Option Int
  quantity : Int
deriving Repr, DecidableEq

/-- `getOrCreateCartID`: find the user's cart, else insert one. -/
def getOrCreateCartID (st : DBState) (userID : Int) : Int × DBState :=
  match st.carts.find? (fun ct => ct.user_id = userID) with
  | some ct => (ct.id, st)
  | none =>
    (st.next_cart_id,
     { st with carts := st.carts ++ [⟨st.next_cart_id, userID⟩],
               next_cart_id := st.next_cart_id + 1 })

/-- Outcome of the `AddToCart` handler. -/
inductive AddToCartOutcome where
  /-- 201 "Item added to cart". -/
  | ok
  /-- 400 binding failure (`quantity` must be `gt=0`, ids required). -/
  | invalidInput
  /-- 404 "Selected variant not found". -/
  | variantNotFound
  /-- 404 "Product not found or inactive". -/
  | productNotFound
  /-- 409 "Insufficient stock". -/
  | insufficientStock
deriving Repr, DecidableEq

/-- Does the request take the variant branch
(`input.VariantID != nil && *input.VariantID > 0`)? -/
def usesVariant (input : AddToCartInput) : Bool :=
  match input.variant_id with
  | some v => 0 < v
  | none => false

/-- Row-match predicate of the existing-line check and of the UPDATE:
`cart_id = ? AND product_id = ?` plus `variant_id = ?` in the variant branch,
`variant_id IS NULL` otherwise. -/
def cartLineMatches (input : AddToCartInput) (cartID : Int) (ci : CartItem) : Bool :=
  ci.cart_id = cartID ∧ ci.product_id = input.product_id ∧
    (if usesVariant input then ci.variant_id = input.variant_id else ci.variant_id = none)

/-- `AddToCart` (`POST /v1/dropshipper/cart`), one transaction:
bind input (`quantity gt=0`) → get-or-create cart → read stock and price from
the variant (variant branch) or from the base product with
`status = 'active'` → `if stock < input.Quantity` fail → if the line exists,
`UPDATE ... SET quantity = quantity + ?`, else INSERT the new line (storing
`input.variant_id` verbatim) → commit. -/
def AddToCart (st : DBState) (dropshipperID : Int) (input : AddToCartInput) :
    TxResult AddToCartOutcome :=
  if input.quantity ≤ 0 then ⟨AddToCartOutcome.invalidInput, st, []⟩
  else
    let (cartID, st0) := getOrCreateCartID st dropshipperID
    let stockPrice : Option (Int × Int) :=
      if usesVariant input then
        (st0.product_variants.find? (fun vr =>
          some vr.id = input.variant_id ∧ vr.product_id = input.product_id)).map
          (fun vr => (vr.stock_quantity, vr.price_to_tts))
      else
        (st0.products.find? (fun p =>
          p.id = input.product_id ∧ p.status = "active")).map
          (fun p => (p.stock_quantity, p.price_to_tts))
    match stockPrice with
    | none =>
      if usesVariant input then ⟨AddToCartOutcome.variantNotFound, st, []⟩
      else ⟨AddToCartOutcome.productNotFound, st, []⟩
    | some (stock, _price) =>
      if stock < input.quantity then ⟨AddToCartOutcome.insufficientStock, st, []⟩
      else
        match st0.cart_items.find? (cartLineMatches input cartID) with
        | some _ =>
          let items := st0.cart_items.map (fun ci =>
            if cartLineMatches input cartID ci then
              { ci with quantity := ci.quantity + input.quantity }
            else ci)
          ⟨AddToCartOutcome.ok, { st0 with cart_items := items }, []⟩
        | none =>
          let items := st0.cart_items ++
            [⟨cartID, input.product_id, input.variant_id, input.quantity⟩]
          ⟨AddToCartOutcome.ok, { st0 with cart_items := items }, []⟩

/-! ## Overdue sweeper -/

/-- Modelled from the spec: the body of `Handlers.ProcessOverdueOrders` is not
in the repository snapshot — only its caller, the ticker goroutine in
`cmd/api/main.go`, is.  Per §4.6/§4.3 of the spec it scans all orders in
`on-hold` older than a configured deadline and transitions each independently
to `cancelled`; no stock or ledger mutation occurs ("cancellation is a pure
state flip, not a compensating transaction").  `now` and `deadline` are the
tick time and the configured hold deadline. -/
def ProcessOverdueOrders (st : DBState) (now deadline : Int) : DBState :=
  { st with orders := st.orders.map (fun o =>
      if o.status = "on-hold" ∧ o.created_at + deadline < now then
        { o with status := "cancelled", updated_at := now }
      else o) }

/-! ## Derived state descriptions and ledger chaining -/

/-- Net quantity deducted from product `pid` by a list of
`(product_id, quantity)` stock updates. -/
def stockDelta (pid : Int) (pairs : List (Int × Int)) : Int :=
  ((pairs.filter (fun pr => pr.1 = pid)).map (fun pr => pr.2)).sum

/-- Product list after deducting, from each product's stock, the net quantity
the `(product_id, quantity)` list charges it with. -/
def decrementedBy (ps : List Product) (pairs : List (Int × Int)) : List Product :=
  ps.map (fun p =>
    { p with stock_quantity := p.stock_quantity - stockDelta p.id pairs })

/-- The post-state of a committed `Checkout` transaction, spelled out.  Derived
characterization used by the lemmas below (`Checkout_ok_state` proves that
`Checkout` produces exactly this state). -/
def checkoutFinalState (st : DBState) (uid now : Int) (cart : Cart)
    (stat : String) (tot : Int) : DBState :=
  let lines := checkoutCartItemsQuery st cart.id
  let oid := st.next_order_id
  { st with
    orders := st.orders ++ [⟨oid, uid, stat, tot, now, now⟩],
    next_order_id := st.next_order_id + 1,
    order_items := st.order_items ++
      lines.map (fun it => ⟨oid, it.ProductID, it.Quantity, it.Price, now⟩),
    products :=
      if stat = "processing" then
        decrementedBy st.products (lines.map (fun it => (it.ProductID, it.Quantity)))
      else st.products,
    wallet_transactions :=
      if stat = "processing" then
        st.wallet_transactions ++
          [⟨uid, "order", "completed", -tot, GetWalletBalance st uid + -tot,
            "Payment for Order ID " ++ toString oid⟩]
      else st.wallet_transactions,
    cart_items := st.cart_items.filter (fun ci => ¬ ci.cart_id = cart.id) }

/-- Boolean check that a ledger list is chained: starting from balance `b`,
each entry's `balance_after` equals the previous balance plus its `amount`
(§3 of the spec: "balanceAfter chaining is consistent with a full replay"). -/
def chainedFromB (b : Int) : List WalletTransaction → Bool
  | [] => true
  | t :: rest => (t.balance_after = b + t.amount) && chainedFromB t.balance_after rest

/-- Erase a cart line's variant id (used to state that checkout never reads
it). -/
def eraseVariantId (ci : CartItem) : CartItem :=
  { ci with variant_id := none }

/-! ## Concrete states used by witnesses and counterexamples -/

/-- The empty database. -/
def emptyDB : DBState :=
  { products := [], product_variants := [], carts := [], cart_items := [],
    orders := [], order_items := [], wallet_transactions := [],
    next_order_id := 1, next_cart_id := 1 }

/-- Solvent checkout scenario: balance 50, one published product, cart 2 x 10. -/
def wsA : DBState :=
  { emptyDB with
    products := [⟨1, "published", 10, 5⟩],
    carts := [⟨1, 1⟩],
    cart_items := [⟨1, 1, none, 2⟩],
    wallet_transactions := [⟨1, "topup", "completed", 50, 50, "t"⟩],
    next_order_id := 7, next_cart_id := 2 }

/-- Insufficient-stock scenario: the single cart line asks for 7 of 5. -/
def wsB : DBState :=
  { wsA with cart_items := [⟨1, 1, none, 7⟩] }

/-- On-hold order scenario: order 7 (total 20) is on hold, balance 50. -/
def wsC : DBState :=
  { emptyDB with
    products := [⟨1, "published", 10, 5⟩],
    orders := [⟨7, 1, "on-hold", 20, 100, 100⟩],
    order_items := [⟨7, 1, 2, 10, 100⟩],
    wallet_transactions := [⟨1, "topup", "completed", 50, 50, "t"⟩],
    next_order_id := 8 }

/-- Same as `wsC` but order 7 is already `processing`. -/
def wsD : DBState :=
  { wsC with orders := [⟨7, 1, "processing", 20, 100, 100⟩] }

/-- A ledger whose single entry has `balance_after` (7) out of sync with its
`amount` (5), to separate the snapshot read from the running sum. -/
def wsE : DBState :=
  { emptyDB with wallet_transactions := [⟨1, "topup", "completed", 5, 7, "t"⟩] }

/-- A properly chained two-entry ledger: 0 → 5 → 3. -/
def wsF : DBState :=
  { emptyDB with wallet_transactions :=
      [⟨1, "topup", "completed", 5, 5, "a"⟩,
       ⟨1, "withdrawal", "completed", -2, 3, "b"⟩] }

/-- Accumulation scenario: stock 5, the cart already holds 4 of product 1. -/
def wsG : DBState :=
  { emptyDB with
    products := [⟨1, "active", 1, 5⟩],
    carts := [⟨1, 1⟩],
    cart_items := [⟨1, 1, none, 4⟩],
    next_cart_id := 2 }

/-- An on-hold order created at time 100, for sweeping. -/
def wsH : DBState :=
  { emptyDB with orders := [⟨7, 1, "on-hold", 20, 100, 100⟩] }

/-- A variant cart line: variant 4 of product 1 has price 3 and stock 1, while
the base product has price 10 and stock 5; the line asks for 2. -/
def wsI : DBState :=
  { emptyDB with
    products := [⟨1, "published", 10, 5⟩],
    product_variants := [⟨4, 1, 3, 1⟩],
    carts := [⟨1, 1⟩],
    cart_items := [⟨1, 1, some 4, 2⟩],
    wallet_transactions := [⟨1, "topup", "completed", 50, 50, "t"⟩],
    next_order_id := 7, next_cart_id := 2 }

/-- A cart mixing a published line (product 1) and a draft line (product 2). -/
def wsJ : DBState :=
  { wsA with
    products := [⟨1, "published", 10, 5⟩, ⟨2, "draft", 100, 5⟩],
    cart_items := [⟨1, 1, none, 2⟩, ⟨1, 2, none, 1⟩] }

/-- A cart holding only the draft line. -/
def wsK : DBState :=
  { wsJ with cart_items := [⟨1, 2, none, 1⟩] }

/-! ## Helper lemmas -/

theorem foldl_deductStock_eq (pairs : List (Int × Int)) (ps : List Product) :
    pairs.foldl (fun acc pr => deductStock acc pr.1 pr.2) ps =
      ps.map (fun p =>
        { p with stock_quantity := p.stock_quantity - stockDelta p.id pairs }) := by
  induction pairs generalizing ps with
  | nil =>
      simp only [List.foldl_nil, stockDelta, List.filter_nil, List.map_nil,
        List.sum_nil, sub_zero]
      exact (List.map_id ps).symm
  | cons pr rest ih =>
      rw [List.foldl_cons, ih, deductStock, List.map_map]
      refine List.map_congr_left (fun p _ => ?_)
      simp only [Function.comp_apply]
      by_cases h : p.id = pr.1
      · rw [if_pos h]
        have hfil : stockDelta p.id (pr :: rest) = pr.2 + stockDelta p.id rest := by
          simp [stockDelta, List.filter_cons, h.symm]
        simp [hfil, sub_sub]
      · rw [if_neg h]
        have hfil : stockDelta p.id (pr :: rest) = stockDelta p.id rest := by
          have hne : ¬ (pr.1 = p.id) := fun hc => h hc.symm
          simp [stockDelta, List.filter_cons, hne]
        rw [hfil]

theorem scanCartItems_ok {l items : List CartItemData} {total : Int}
    (h : scanCartItems l = Except.ok (items, total)) :
    items = l ∧ total = (l.map (fun it => it.Price * it.Quantity)).sum ∧
      ∀ it ∈ l, ¬ it.Stock < it.Quantity := by
  induction l generalizing items total with
  | nil =>
      simp only [scanCartItems, Except.ok.injEq, Prod.mk.injEq] at h
      simp [← h.1, ← h.2]
  | cons it rest ih =>
      rw [scanCartItems] at h
      by_cases hs : it.Stock < it.Quantity
      · rw [if_pos hs] at h; cases h
      · rw [if_neg hs] at h
        cases hrec : scanCartItems rest with
        | error pid => rw [hrec] at h; cases h
        | ok pr =>
            obtain ⟨items', total'⟩ := pr
            rw [hrec] at h
            simp only [Except.ok.injEq, Prod.mk.injEq] at h
            obtain ⟨hi, ht⟩ := h
            obtain ⟨hi', ht', hall⟩ := ih hrec
            subst hi'
            refine ⟨by rw [← hi], ?_, ?_⟩
            · rw [← ht, ht']; simp
            · intro x hx
              rcases List.mem_cons.mp hx with hx | hx
              · rw [hx]; exact hs
              · exact hall x hx

theorem scanCartItems_error_of_short {l : List CartItemData}
    (h : ∃ it ∈ l, it.Stock < it.Quantity) :
    ∃ pid, scanCartItems l = Except.error pid ∧
      ∃ it ∈ l, it.ProductID = pid ∧ it.Stock < it.Quantity := by
  induction l with
  | nil => simp at h
  | cons it rest ih =>
      by_cases hs : it.Stock < it.Quantity
      · exact ⟨it.ProductID, by rw [scanCartItems, if_pos hs],
          it, List.mem_cons_self .., rfl, hs⟩
      · obtain ⟨x, hx, hxs⟩ := h
        rcases List.mem_cons.mp hx with hx | hx
        · exact absurd (hx ▸ hxs) hs
        · obtain ⟨pid, hscan, y, hy, hyp, hys⟩ := ih ⟨x, hx, hxs⟩
          refine ⟨pid, ?_, y, List.mem_cons_of_mem _ hy, hyp, hys⟩
          rw [scanCartItems, if_neg hs, hscan]

theorem checkoutWriteItems_eq (orderStatus : String) (orderID now : Int)
    (items : List CartItemData) (st : DBState) :
    checkoutWriteItems orderStatus orderID now items st =
      { st with
        order_items := st.order_items ++
          items.map (fun it => ⟨orderID, it.ProductID, it.Quantity, it.Price, now⟩),
        products :=
          if orderStatus = "processing" then
            (items.map (fun it => (it.ProductID, it.Quantity))).foldl
              (fun acc pr => deductStock acc pr.1 pr.2) st.products
          else st.products } := by
  induction items generalizing st with
  | nil =>
      simp only [checkoutWriteItems, List.foldl_nil, List.map_nil, List.append_nil,
        ite_self]
  | cons it rest ih =>
      rw [checkoutWriteItems, List.foldl_cons, ← checkoutWriteItems]
      rw [ih]
      by_cases hp : orderStatus = "processing"
      · simp only [checkoutWriteItem, hp, if_pos rfl, List.map_cons, List.foldl_cons]
        simp [List.append_assoc]
      · simp only [checkoutWriteItem, if_neg hp, List.map_cons, List.foldl_cons]
        simp [hp, List.append_assoc]

/-- Master characterization of a successful checkout: what must have held of
the pre-state, and exactly what the post-state is. -/
theorem Checkout_ok_state {st : DBState} {uid now oid tot : Int} {stat : String}
    (h : (Checkout st uid now).outcome = CheckoutOutcome.ok oid stat tot) :
    ∃ cart, st.carts.find? (fun ct => ct.user_id = uid) = some cart ∧
      checkoutCartItemsQuery st cart.id ≠ [] ∧
      (∀ it ∈ checkoutCartItemsQuery st cart.id, ¬ it.Stock < it.Quantity) ∧
      tot = ((checkoutCartItemsQuery st cart.id).map
        (fun it => it.Price * it.Quantity)).sum ∧
      oid = st.next_order_id ∧
      stat = (if GetWalletBalance st uid < tot then "on-hold" else "processing") ∧
      (Checkout st uid now).state = checkoutFinalState st uid now cart stat tot := by
  cases hfind : st.carts.find? (fun ct => ct.user_id = uid) with
  | none => simp only [Checkout, hfind] at h; cases h
  | some cart =>
    cases hscan : scanCartItems (checkoutCartItemsQuery st cart.id) with
    | error pid => simp only [Checkout, hfind, hscan] at h; cases h
    | ok pr =>
      obtain ⟨items, total⟩ := pr
      obtain ⟨hitems, htot, hnoshort⟩ := scanCartItems_ok hscan
      subst hitems
      by_cases hemp : checkoutCartItemsQuery st cart.id = []
      · simp only [Checkout, hfind, hscan, if_pos hemp] at h; cases h
      · simp only [Checkout, hfind, hscan, if_neg hemp] at h
        simp only [CheckoutOutcome.ok.injEq] at h
        obtain ⟨hoid, hstat, htot'⟩ := h
        subst hoid; subst htot'; subst hstat
        refine ⟨cart, rfl, hemp, hnoshort, htot, rfl, rfl, ?_⟩
        simp only [Checkout, hfind, hscan, if_neg hemp]
        rw [checkoutWriteItems_eq]
        by_cases hbal : GetWalletBalance st uid < total
        · simp only [if_pos hbal]
          simp [checkoutFinalState, if_pos hbal, AddWalletTransaction]
        · simp only [if_neg hbal]
          simp [checkoutFinalState, if_neg hbal, AddWalletTransaction,
            foldl_deductStock_eq, GetWalletBalance, decrementedBy]

/-- Transactional rollback: a checkout that does not answer `ok` leaves the
database exactly as it was. -/
theorem Checkout_error_rollback (st : DBState) (uid now : Int)
    (h : ∀ oid stat tot, (Checkout st uid now).outcome ≠ CheckoutOutcome.ok oid stat tot) :
    (Checkout st uid now).state = st := by
  cases hfind : st.carts.find? (fun ct => ct.user_id = uid) with
  | none => simp [Checkout, hfind]
  | some cart =>
    cases hscan : scanCartItems (checkoutCartItemsQuery st cart.id) with
    | error pid => simp [Checkout, hfind, hscan]
    | ok pr =>
      obtain ⟨items, total⟩ := pr
      obtain ⟨hitems, -, -⟩ := scanCartItems_ok hscan
      subst hitems
      by_cases hemp : checkoutCartItemsQuery st cart.id = []
      · simp [Checkout, hfind, hscan, hemp, scanCartItems]
      · exact absurd (by simp [Checkout, hfind, hscan, hemp])
          (h st.next_order_id
            (if GetWalletBalance st uid < total then "on-hold" else "processing") total)

/-- `checkoutLines` agrees with the per-cart query once the cart is known. -/
theorem checkoutLines_of_find {st : DBState} {uid : Int} {cart : Cart}
    (hfind : st.carts.find? (fun ct => ct.user_id = uid) = some cart) :
    checkoutLines st uid = checkoutCartItemsQuery st cart.id := by
  simp [checkoutLines, hfind]

/-- A stock shortage on any resolved line makes the whole checkout fail with
`insufficientStock` naming an offending product, and roll back. -/
theorem Checkout_short_state (st : DBState) (uid now : Int)
    (h : ∃ it ∈ checkoutLines st uid, it.Stock < it.Quantity) :
    ∃ pid, (Checkout st uid now).outcome = CheckoutOutcome.insufficientStock pid ∧
      (∃ it ∈ checkoutLines st uid, it.ProductID = pid ∧ it.Stock < it.Quantity) ∧
      (Checkout st uid now).state = st := by
  cases hfind : st.carts.find? (fun ct => ct.user_id = uid) with
  | none => rw [checkoutLines, hfind] at h; simp at h
  | some cart =>
    rw [checkoutLines_of_find hfind] at h
    obtain ⟨pid, hscan, hoff⟩ := scanCartItems_error_of_short h
    refine ⟨pid, ?_, ?_, ?_⟩
    · simp [Checkout, hfind, hscan]
    · rw [checkoutLines_of_find hfind]; exact hoff
    · simp [Checkout, hfind, hscan]

theorem firstOutOfStock_none {items : List ItemStockCheck}
    (h : firstOutOfStock items = none) : ∀ it ∈ items, ¬ it.Stock < it.Quantity := by
  induction items with
  | nil => simp
  | cons a rest ih =>
      rw [firstOutOfStock] at h
      by_cases ha : a.Stock < a.Quantity
      · rw [if_pos ha] at h; cases h
      · rw [if_neg ha] at h
        intro it hit
        rcases List.mem_cons.mp hit with hx | hx
        · rw [hx]; exact ha
        · exact ih h it hx

theorem foldl_deductStock_items (items : List ItemStockCheck) (ps : List Product) :
    items.foldl (fun acc it => deductStock acc it.ProductID it.Quantity) ps =
      decrementedBy ps (items.map (fun it => (it.ProductID, it.Quantity))) := by
  have h := foldl_deductStock_eq (items.map (fun it => (it.ProductID, it.Quantity))) ps
  rw [List.foldl_map] at h
  rw [decrementedBy]
  exact h

/-- Master characterization of a successful deferred payment: what must have
held of the pre-state, and exactly what the post-state is. -/
theorem PayOrder_ok_state {st : DBState} {uid oid now : Int}
    (h : (PayOrder st uid oid now).outcome = PayOrderOutcome.ok) :
    ∃ o, st.orders.find? (fun o => o.id = oid ∧ o.user_id = uid) = some o ∧
      o.status = "on-hold" ∧
      ¬ GetWalletBalance st uid < o.total ∧
      (∀ it ∈ payOrderItemsQuery st oid, ¬ it.Stock < it.Quantity) ∧
      (PayOrder st uid oid now).state =
        { st with
          products := decrementedBy st.products
            ((payOrderItemsQuery st oid).map (fun it => (it.ProductID, it.Quantity))),
          wallet_transactions := st.wallet_transactions ++
            [⟨uid, "order_payment", "completed", -o.total,
              GetWalletBalance st uid + -o.total, "Payment for Order #" ++ toString oid⟩],
          orders := st.orders.map (fun oo =>
            if oo.id = oid then { oo with status := "processing", updated_at := now }
            else oo) } ∧
      (PayOrder st uid oid now).locks =
        [LockedRow.orderRow oid, LockedRow.walletOfUser uid] := by
  cases hfind : st.orders.find? (fun o => o.id = oid ∧ o.user_id = uid) with
  | none => simp only [PayOrder, hfind] at h; cases h
  | some o =>
    by_cases hst : o.status = "on-hold"
    · by_cases hbal : GetWalletBalance st uid < o.total
      · simp only [PayOrder, hfind] at h
        rw [if_pos hst, if_pos hbal] at h
        cases h
      · cases hoos : firstOutOfStock (payOrderItemsQuery st oid) with
        | some pid =>
            simp only [PayOrder, hfind] at h
            rw [if_pos hst, if_neg hbal, hoos] at h
            simp at h
        | none =>
            refine ⟨o, rfl, hst, hbal, firstOutOfStock_none hoos, ?_, ?_⟩
            · simp only [PayOrder, hfind]
              rw [if_pos hst, if_neg hbal, hoos]
              simp [AddWalletTransaction, foldl_deductStock_items, GetWalletBalance]
            · simp only [PayOrder, hfind]
              rw [if_pos hst, if_neg hbal, hoos]
              simp
    · simp only [PayOrder, hfind] at h
      rw [if_neg hst] at h
      cases h


theorem linesTotal_pos {l : List CartItemData} (hne : l ≠ [])
    (hpos : ∀ it ∈ l, 0 < it.Price ∧ 0 < it.Quantity) :
    0 < (l.map (fun it => it.Price * it.Quantity)).sum := by
  cases l with
  | nil => exact absurd rfl hne
  | cons a rest =>
      have ha := hpos a (List.mem_cons_self _ _)
      have h1 : 0 < a.Price * a.Quantity := mul_pos ha.1 ha.2
      have h2 : 0 ≤ (rest.map (fun it => it.Price * it.Quantity)).sum := by
        apply List.sum_nonneg
        intro x hx
        simp only [List.mem_map] at hx
        obtain ⟨it, hit, rfl⟩ := hx
        have hb := hpos it (List.mem_cons_of_mem _ hit)
        exact le_of_lt (mul_pos hb.1 hb.2)
      simp only [List.map_cons, List.sum_cons]
      omega

/-- Every resolved checkout line carries the quantity of a cart row of this
cart and the price/stock of a published base product with the line's id. -/
theorem checkoutCartItemsQuery_mem {st : DBState} {cid : Int} {it : CartItemData}
    (h : it ∈ checkoutCartItemsQuery st cid) :
    ∃ ci ∈ st.cart_items, ci.cart_id = cid ∧ ci.product_id = it.ProductID ∧
      ci.quantity = it.Quantity ∧
      ∃ p ∈ st.products, p.id = it.ProductID ∧ p.status = "published" ∧
        p.price_to_tts = it.Price ∧ p.stock_quantity = it.Stock := by
  simp only [checkoutCartItemsQuery, List.mem_filterMap, List.mem_filter,
    Option.map_eq_some', decide_eq_true_eq] at h
  obtain ⟨ci, ⟨hmem, hcid⟩, p, hfindp, hmk⟩ := h
  have hp_mem := List.mem_of_find?_eq_some hfindp
  have hp_pred := List.find?_some hfindp
  simp only [decide_eq_true_eq] at hp_pred
  cases hmk
  exact ⟨ci, hmem, hcid, rfl, rfl, p, hp_mem, hp_pred.1, hp_pred.2, rfl, rfl⟩


/-- When a user's ledger is chained starting from 0, the latest snapshot
equals the running sum. -/
theorem specLatest_chained (st : DBState) (uid : Int)
    (hch : chainedFromB 0
      (st.wallet_transactions.filter (fun t => t.user_id = uid)) = true) :
    specLatestBalanceAfter st uid = GetWalletBalance st uid := by
  unfold specLatestBalanceAfter GetWalletBalance
  generalize st.wallet_transactions.filter (fun t => t.user_id = uid) = l at hch ⊢
  suffices h : ∀ b, chainedFromB b l = true →
      l.getLast?.elim b (fun t => t.balance_after) =
        b + (l.map (fun t => t.amount)).sum by
    simpa using h 0 hch
  clear hch
  induction l with
  | nil => intro b _; simp
  | cons t rest ih =>
      intro b hb
      rw [chainedFromB] at hb
      simp only [Bool.and_eq_true, decide_eq_true_eq] at hb
      obtain ⟨h1, h2⟩ := hb
      cases rest with
      | nil => simp [h1]
      | cons u rl =>
          rw [List.getLast?_cons_cons]
          cases hl : (u :: rl).getLast? with
          | none => simp at hl
          | some tl =>
              have h3 := ih t.balance_after h2
              rw [hl] at h3
              simp only [Option.elim] at h3 ⊢
              simp only [List.map_cons, List.sum_cons] at h3 ⊢
              omega

/-- The published-join of `Checkout` neither reads `variant_id` nor the
variants table: erasing every cart line's variant id leaves it unchanged. -/
theorem checkoutCartItemsQuery_erase_variant (st : DBState) (cid : Int) :
    checkoutCartItemsQuery
      { st with cart_items := st.cart_items.map eraseVariantId }
      cid = checkoutCartItemsQuery st cid := by
  simp only [checkoutCartItemsQuery]
  rw [List.filter_map, List.filterMap_map]
  rfl


/-! ## Claims -/

/-- C1: for every checkout whose cart resolves to at least one line (the
handler answers `ok`), the created order's status is "processing" exactly when
the wallet balance is at least the computed total; in that case every resolved
line's product stock is decremented by the line quantity and exactly one
ledger movement of amount `-total` (negative, prices and quantities being
positive) is appended; with balance below total the order is "on-hold" and
neither stock nor ledger changes. -/
theorem checkout_solvency_stock_ledger (st : DBState) (uid now oid tot : Int)
    (stat : String)
    (hq : ∀ ci ∈ st.cart_items, 0 < ci.quantity)
    (hp : ∀ p ∈ st.products, 0 < p.price_to_tts)
    (h : (Checkout st uid now).outcome = CheckoutOutcome.ok oid stat tot) :
    (stat = "processing" ↔ tot ≤ GetWalletBalance st uid) ∧
    (stat = "on-hold" ∨ stat = "processing") ∧
    (stat = "processing" →
      (Checkout st uid now).state.products =
        decrementedBy st.products
          ((checkoutLines st uid).map (fun it => (it.ProductID, it.Quantity))) ∧
      (Checkout st uid now).state.wallet_transactions =
        st.wallet_transactions ++
          [⟨uid, "order", "completed", -tot, GetWalletBalance st uid + -tot,
            "Payment for Order ID " ++ toString oid⟩] ∧
      -tot < 0) ∧
    (stat = "on-hold" →
      (Checkout st uid now).state.products = st.products ∧
      (Checkout st uid now).state.wallet_transactions = st.wallet_transactions) := by
  obtain ⟨cart, hfind, hne, hnoshort, htot, hoid, hstat, hstate⟩ := Checkout_ok_state h
  have hlines := checkoutLines_of_find hfind
  have hpos : ∀ it ∈ checkoutCartItemsQuery st cart.id, 0 < it.Price ∧ 0 < it.Quantity := by
    intro it hit
    obtain ⟨ci, hci, -, -, hciq, p, hpmem, -, -, hppr, -⟩ := checkoutCartItemsQuery_mem hit
    exact ⟨hppr ▸ hp p hpmem, hciq ▸ hq ci hci⟩
  have htotpos : 0 < tot := htot ▸ linesTotal_pos hne hpos
  by_cases hbal : GetWalletBalance st uid < tot
  · have hstat' : stat = "on-hold" := by rw [hstat, if_pos hbal]
    refine ⟨?_, Or.inl hstat', ?_, ?_⟩
    · rw [hstat']
      exact iff_of_false (by decide) (not_le.mpr hbal)
    · intro hproc
      rw [hstat'] at hproc
      exact absurd hproc (by decide)
    · intro _
      rw [hstate]
      exact ⟨by simp [checkoutFinalState, hstat'], by simp [checkoutFinalState, hstat']⟩
  · have hstat' : stat = "processing" := by rw [hstat, if_neg hbal]
    refine ⟨?_, Or.inr hstat', ?_, ?_⟩
    · rw [hstat']
      exact iff_of_true rfl (not_lt.mp hbal)
    · intro _
      rw [hstate]
      refine ⟨?_, ?_, by omega⟩
      · simp [checkoutFinalState, hstat', hlines]
      · simp [checkoutFinalState, hstat', hoid]
    · intro honhold
      rw [hstat'] at honhold
      exact absurd honhold (by decide)

theorem checkout_solvency_stock_ledger_witness :
    ("processing" = "processing" ↔ (20 : Int) ≤ GetWalletBalance wsA 1) ∧
    (Checkout wsA 1 100).state.products =
      decrementedBy wsA.products
        ((checkoutLines wsA 1).map (fun it => (it.ProductID, it.Quantity))) ∧
    (Checkout wsA 1 100).state.wallet_transactions =
      wsA.wallet_transactions ++
        [⟨1, "order", "completed", -20, GetWalletBalance wsA 1 + -20,
          "Payment for Order ID " ++ toString (7 : Int)⟩] := by
  have h := checkout_solvency_stock_ledger wsA 1 100 7 20 "processing"
    (by decide) (by decide) (by decide)
  exact ⟨h.1, (h.2.2.1 rfl).1, (h.2.2.1 rfl).2.1⟩

/-- C2: a cart line whose quantity exceeds the stock read during checkout
makes the whole checkout fail with an insufficient-stock error naming an
offending product, leaving the database (orders, order lines, ledger, stock,
cart) exactly as before; and a checkout failing at any step rolls back the
whole state. -/
theorem checkout_insufficient_stock_atomic (st : DBState) (uid now : Int)
    (h : ∃ it ∈ checkoutLines st uid, it.Stock < it.Quantity) :
    (∃ pid, (Checkout st uid now).outcome = CheckoutOutcome.insufficientStock pid ∧
      ∃ it ∈ checkoutLines st uid, it.ProductID = pid ∧ it.Stock < it.Quantity) ∧
    (Checkout st uid now).state = st ∧
    (∀ st2 uid2 now2,
      (∀ oid stat tot,
        (Checkout st2 uid2 now2).outcome ≠ CheckoutOutcome.ok oid stat tot) →
      (Checkout st2 uid2 now2).state = st2) := by
  obtain ⟨pid, ho, hoff, hs⟩ := Checkout_short_state st uid now h
  exact ⟨⟨pid, ho, hoff⟩, hs,
    fun st2 uid2 now2 hno => Checkout_error_rollback st2 uid2 now2 hno⟩

theorem checkout_insufficient_stock_atomic_witness :
    (∃ pid, (Checkout wsB 1 100).outcome = CheckoutOutcome.insufficientStock pid) ∧
    (Checkout wsB 1 100).state = wsB := by
  have h := checkout_insufficient_stock_atomic wsB 1 100 (by decide)
  obtain ⟨⟨pid, ho, -⟩, hs, -⟩ := h
  exact ⟨⟨pid, ho⟩, hs⟩

/-- C3 counterexample: a deferred payment that succeeds (order 7 of `wsC`)
re-validates stock through a plain SELECT — the referenced product row
(product 1) is in no lock the transaction acquired, refuting "every referenced
stock row re-locked for the re-validation". -/
theorem payOrder_stock_rows_not_locked_cex :
    (PayOrder wsC 1 7 200).outcome = PayOrderOutcome.ok ∧
    (payOrderItemsQuery wsC 7).map (fun it => it.ProductID) = [1] ∧
    LockedRow.productRow 1 ∉ (PayOrder wsC 1 7 200).locks := by decide

/-- C3 (amended): a successful `payOrder` re-validates stock sufficiency for
every order line and re-checks the balance against the order's frozen total
before any mutation; on success it decrements stock, writes one
`order_payment` movement of `-total` and flips the status to "processing",
all in one transaction — but the stock rows are read WITHOUT `FOR UPDATE`:
the only locks taken are the order row and the wallet aggregate. -/
theorem payOrder_success_revalidates_unlocked (st : DBState) (uid oid now : Int)
    (h : (PayOrder st uid oid now).outcome = PayOrderOutcome.ok) :
    ∃ o, st.orders.find? (fun o => o.id = oid ∧ o.user_id = uid) = some o ∧
      o.status = "on-hold" ∧
      o.total ≤ GetWalletBalance st uid ∧
      (∀ it ∈ payOrderItemsQuery st oid, it.Quantity ≤ it.Stock) ∧
      (PayOrder st uid oid now).state.products =
        decrementedBy st.products
          ((payOrderItemsQuery st oid).map (fun it => (it.ProductID, it.Quantity))) ∧
      (PayOrder st uid oid now).state.wallet_transactions =
        st.wallet_transactions ++
          [⟨uid, "order_payment", "completed", -o.total,
            GetWalletBalance st uid + -o.total,
            "Payment for Order #" ++ toString oid⟩] ∧
      (PayOrder st uid oid now).state.orders =
        st.orders.map (fun oo =>
          if oo.id = oid then { oo with status := "processing", updated_at := now }
          else oo) ∧
      (PayOrder st uid oid now).locks =
        [LockedRow.orderRow oid, LockedRow.walletOfUser uid] := by
  obtain ⟨o, hfind, hst, hbal, hnoshort, hstate, hlocks⟩ := PayOrder_ok_state h
  refine ⟨o, hfind, hst, not_lt.mp hbal,
    fun it hit => not_lt.mp (hnoshort it hit), ?_, ?_, ?_, hlocks⟩
  · rw [hstate]
  · rw [hstate]
  · rw [hstate]

theorem payOrder_success_revalidates_unlocked_witness :
    (PayOrder wsC 1 7 200).locks =
      [LockedRow.orderRow 7, LockedRow.walletOfUser 1] ∧
    (PayOrder wsC 1 7 200).state.products =
      decrementedBy wsC.products
        ((payOrderItemsQuery wsC 7).map (fun it => (it.ProductID, it.Quantity))) := by
  have h := payOrder_success_revalidates_unlocked wsC 1 7 200 (by decide)
  obtain ⟨o, -, -, -, -, hprod, -, -, hlocks⟩ := h
  exact ⟨hlocks, hprod⟩

/-- C4: `payOrder` on an order of the caller that is not "on-hold" fails with
the invalid-state error and mutates nothing; `payOrder` for an order id the
caller does not own or that does not exist fails with NotFound and mutates
nothing. -/
theorem payOrder_wrong_state_or_owner (st : DBState) (uid oid now : Int) :
    (∀ o, st.orders.find? (fun o => o.id = oid ∧ o.user_id = uid) = some o →
      o.status ≠ "on-hold" →
      (PayOrder st uid oid now).outcome = PayOrderOutcome.invalidState ∧
      (PayOrder st uid oid now).state = st) ∧
    (st.orders.find? (fun o => o.id = oid ∧ o.user_id = uid) = none →
      (PayOrder st uid oid now).outcome = PayOrderOutcome.notFound ∧
      (PayOrder st uid oid now).state = st) := by
  constructor
  · intro o hfind hst
    constructor
    · simp only [PayOrder, hfind]
      rw [if_neg hst]
    · simp only [PayOrder, hfind]
      rw [if_neg hst]
  · intro hfind
    exact ⟨by simp only [PayOrder, hfind], by simp only [PayOrder, hfind]⟩

theorem payOrder_wrong_state_or_owner_witness :
    ((PayOrder wsD 1 7 0).outcome = PayOrderOutcome.invalidState ∧
      (PayOrder wsD 1 7 0).state = wsD) ∧
    ((PayOrder wsD 1 99 0).outcome = PayOrderOutcome.notFound ∧
      (PayOrder wsD 1 99 0).state = wsD) :=
  ⟨(payOrder_wrong_state_or_owner wsD 1 7 0).1 ⟨7, 1, "processing", 20, 100, 100⟩
      (by decide) (by decide),
    (payOrder_wrong_state_or_owner wsD 1 99 0).2 (by decide)⟩


/-- C5 counterexample: `getBalance` reads the running SUM, not the latest
entry's `balanceAfter` — on a ledger whose single entry has amount 5 but
snapshot 7, it answers 5, not 7. -/
theorem getBalance_not_latest_snapshot_cex :
    GetWalletBalance wsE 1 ≠ specLatestBalanceAfter wsE 1 ∧
    GetWalletBalance wsE 1 = 5 ∧ specLatestBalanceAfter wsE 1 = 7 := by decide

/-- C5 (amended): `getBalance` returns the SUM of all the user's ledger
amounts — and 0 when the user has no entries — rather than reading the most
recent entry's `balanceAfter` snapshot; whenever the user's ledger is chained
(each entry's `balanceAfter` equals the prior balance plus its amount, as the
write path maintains), the sum coincides with that latest snapshot. -/
theorem getBalance_sum_not_snapshot (st : DBState) (uid : Int) :
    GetWalletBalance st uid =
      ((st.wallet_transactions.filter (fun t => t.user_id = uid)).map
        (fun t => t.amount)).sum ∧
    (st.wallet_transactions.filter (fun t => t.user_id = uid) = [] →
      GetWalletBalance st uid = 0) ∧
    (chainedFromB 0 (st.wallet_transactions.filter (fun t => t.user_id = uid)) = true →
      GetWalletBalance st uid = specLatestBalanceAfter st uid) := by
  refine ⟨rfl, ?_, ?_⟩
  · intro h
    simp [GetWalletBalance, h]
  · intro hch
    exact (specLatest_chained st uid hch).symm

theorem getBalance_sum_not_snapshot_witness :
    GetWalletBalance wsF 1 = specLatestBalanceAfter wsF 1 ∧
    GetWalletBalance emptyDB 1 = 0 := by
  refine ⟨(getBalance_sum_not_snapshot wsF 1).2.2 (by decide),
    (getBalance_sum_not_snapshot emptyDB 1).2.1 (by decide)⟩

/-- C6 counterexample: a movement of kind "order_payment" (or "withdrawal")
with a positive supplied amount is written positive — no normalization to a
non-positive amount happens for these kinds in either wallet revision (the
legacy safeguard only covers kind "order"). -/
theorem recordMovement_kind_normalization_cex :
    ((AddWalletTransaction emptyDB 1 "order_payment" 5 "n").wallet_transactions.map
      (fun t => t.amount)) = [5] ∧
    ¬ ((5 : Int) ≤ 0) ∧
    (AddWalletTransactionLegacy 1 "order_payment" 5 "n").amount = 5 ∧
    (AddWalletTransactionLegacy 1 "withdrawal" 5 "n").amount = 5 := by decide

/-- C6 (amended): `recordMovement` writes the supplied amount unchanged — the
current revision performs no sign normalization for any kind; only the legacy
revision normalizes kind "order" (and no other kind) to a non-positive
amount. -/
theorem recordMovement_writes_supplied_amount (st : DBState) (uid : Int)
    (txType : String) (amount : Int) (notes : String) :
    (AddWalletTransaction st uid txType amount notes).wallet_transactions =
      st.wallet_transactions ++
        [⟨uid, txType, "completed", amount, GetWalletBalance st uid + amount, notes⟩] ∧
    (txType = "order" → 0 < amount →
      (AddWalletTransactionLegacy uid txType amount notes).amount = -amount ∧
      (AddWalletTransactionLegacy uid txType amount notes).amount ≤ 0) ∧
    (txType ≠ "order" →
      (AddWalletTransactionLegacy uid txType amount notes).amount = amount) := by
  refine ⟨rfl, ?_, ?_⟩
  · intro ht ha
    constructor
    · simp [AddWalletTransactionLegacy, ht, ha]
    · simp only [AddWalletTransactionLegacy, ht, ha, and_true, true_and, if_pos]
      simp
      omega
  · intro ht
    simp [AddWalletTransactionLegacy, ht]

theorem recordMovement_writes_supplied_amount_witness :
    (AddWalletTransaction emptyDB 1 "topup" 50 "t").wallet_transactions =
      [⟨1, "topup", "completed", 50, GetWalletBalance emptyDB 1 + 50, "t"⟩] ∧
    (AddWalletTransactionLegacy 1 "order" 5 "n").amount = -5 := by
  refine ⟨(recordMovement_writes_supplied_amount emptyDB 1 "topup" 50 "t").1, ?_⟩
  exact ((recordMovement_writes_supplied_amount emptyDB 1 "order" 5 "n").2.1
    rfl (by decide)).1

/-- C7 counterexample: with stock 5 and an existing line of 4, adding 3 more
succeeds (only the increment 3 is checked against stock 5) and the line grows
to 7 — the accumulated total 7 exceeds the stock 5, yet the operation does
not fail, refuting "fails when the accumulated total exceeds stock". -/
theorem addLine_accumulated_not_revalidated_cex :
    (AddToCart wsG 1 ⟨1, none, 3⟩).outcome = AddToCartOutcome.ok ∧
    (AddToCart wsG 1 ⟨1, none, 3⟩).state.cart_items = [⟨1, 1, none, 7⟩] ∧
    wsG.products = [⟨1, "active", 1, 5⟩] ∧ (5 : Int) < 7 := by decide

/-- C7 (amended): for every addLine call — variant-keyed or not — whose
(cart, product, variant) line already exists, the new quantity is the old
quantity plus the requested quantity (accumulate, never replace); but only
the requested increment is validated against the current stock of the line's
key (the variant's stock in the variant branch, the base product's
otherwise) — the operation fails exactly when the increment alone exceeds
that stock, regardless of the accumulated total.  The hypothesis `hstock` is
the source's own branch-dependent stock/price lookup. -/
theorem addLine_accumulates_checks_increment (st : DBState) (uid : Int)
    (input : AddToCartInput) (cart : Cart) (stock price : Int) (ci : CartItem)
    (hq : 0 < input.quantity)
    (hfind : st.carts.find? (fun ct => ct.user_id = uid) = some cart)
    (hstock :
      (if usesVariant input then
        (st.product_variants.find? (fun vr =>
          some vr.id = input.variant_id ∧ vr.product_id = input.product_id)).map
          (fun vr => (vr.stock_quantity, vr.price_to_tts))
      else
        (st.products.find? (fun p =>
          p.id = input.product_id ∧ p.status = "active")).map
          (fun p => (p.stock_quantity, p.price_to_tts))) = some (stock, price))
    (hline : st.cart_items.find? (cartLineMatches input cart.id) = some ci) :
    (input.quantity ≤ stock →
      (AddToCart st uid input).outcome = AddToCartOutcome.ok ∧
      (AddToCart st uid input).state.cart_items =
        st.cart_items.map (fun c =>
          if cartLineMatches input cart.id c then
            { c with quantity := c.quantity + input.quantity }
          else c)) ∧
    (stock < input.quantity →
      (AddToCart st uid input).outcome = AddToCartOutcome.insufficientStock ∧
      (AddToCart st uid input).state = st) := by
  have hgoc : getOrCreateCartID st uid = (cart.id, st) := by
    simp [getOrCreateCartID, hfind]
  have hq2 : ¬ (input.quantity ≤ 0) := by omega
  constructor
  · intro hle
    have hns : ¬ (stock < input.quantity) := not_lt.mpr hle
    constructor
    · simp only [AddToCart, hgoc]
      rw [if_neg hq2, hstock]
      simp only [hline, if_neg hns]
    · simp only [AddToCart, hgoc]
      rw [if_neg hq2, hstock]
      simp only [hline, if_neg hns]
  · intro hgt
    constructor
    · simp only [AddToCart, hgoc]
      rw [if_neg hq2, hstock]
      simp only [if_pos hgt]
    · simp only [AddToCart, hgoc]
      rw [if_neg hq2, hstock]
      simp only [if_pos hgt]

theorem addLine_accumulates_checks_increment_witness :
    ((AddToCart wsG 1 ⟨1, none, 3⟩).outcome = AddToCartOutcome.ok ∧
      (AddToCart wsG 1 ⟨1, none, 3⟩).state.cart_items =
        wsG.cart_items.map (fun c =>
          if cartLineMatches ⟨1, none, 3⟩ 1 c then
            { c with quantity := c.quantity + 3 }
          else c)) ∧
    ((AddToCart wsG 1 ⟨1, none, 6⟩).outcome = AddToCartOutcome.insufficientStock ∧
      (AddToCart wsG 1 ⟨1, none, 6⟩).state = wsG) ∧
    ((AddToCart wsI 1 ⟨1, some 4, 1⟩).outcome = AddToCartOutcome.ok ∧
      (AddToCart wsI 1 ⟨1, some 4, 1⟩).state.cart_items =
        wsI.cart_items.map (fun c =>
          if cartLineMatches ⟨1, some 4, 1⟩ 1 c then
            { c with quantity := c.quantity + 1 }
          else c)) := by
  refine ⟨(addLine_accumulates_checks_increment wsG 1 ⟨1, none, 3⟩ ⟨1, 1⟩ 5 1
      ⟨1, 1, none, 4⟩ (by decide) (by decide) (by decide) (by decide)).1
      (by decide),
    (addLine_accumulates_checks_increment wsG 1 ⟨1, none, 6⟩ ⟨1, 1⟩ 5 1
      ⟨1, 1, none, 4⟩ (by decide) (by decide) (by decide) (by decide)).2
      (by decide),
    (addLine_accumulates_checks_increment wsI 1 ⟨1, some 4, 1⟩ ⟨1, 1⟩ 1 3
      ⟨1, 1, some 4, 2⟩ (by decide) (by decide) (by decide) (by decide)).1
      (by decide)⟩


/-- C8 (modelled from the spec): a sweeper tick transitions every on-hold
order older than the configured deadline to "cancelled", leaves every other
order untouched, and changes no wallet balance, no ledger row, no product
stock, no cart line and no order line — cancellation is a pure state flip
with no compensation. -/
theorem sweeper_cancels_overdue_frame (st : DBState) (now deadline : Int) :
    (∀ o ∈ st.orders, o.status = "on-hold" → o.created_at + deadline < now →
      { o with status := "cancelled", updated_at := now } ∈
        (ProcessOverdueOrders st now deadline).orders) ∧
    (∀ o ∈ st.orders, ¬ (o.status = "on-hold" ∧ o.created_at + deadline < now) →
      o ∈ (ProcessOverdueOrders st now deadline).orders) ∧
    (∀ uid, GetWalletBalance (ProcessOverdueOrders st now deadline) uid =
      GetWalletBalance st uid) ∧
    (ProcessOverdueOrders st now deadline).wallet_transactions =
      st.wallet_transactions ∧
    (ProcessOverdueOrders st now deadline).products = st.products ∧
    (ProcessOverdueOrders st now deadline).cart_items = st.cart_items ∧
    (ProcessOverdueOrders st now deadline).order_items = st.order_items := by
  refine ⟨?_, ?_, fun uid => rfl, rfl, rfl, rfl, rfl⟩
  · intro o ho hs hd
    simp only [ProcessOverdueOrders]
    exact List.mem_map.mpr ⟨o, ho, by rw [if_pos ⟨hs, hd⟩]⟩
  · intro o ho hnot
    simp only [ProcessOverdueOrders]
    exact List.mem_map.mpr ⟨o, ho, by rw [if_neg hnot]⟩

theorem sweeper_cancels_overdue_frame_witness :
    (⟨7, 1, "cancelled", 20, 100, 200⟩ : Order) ∈
      (ProcessOverdueOrders wsH 200 50).orders ∧
    (ProcessOverdueOrders wsH 200 50).wallet_transactions =
      wsH.wallet_transactions ∧
    (ProcessOverdueOrders wsH 200 50).products = wsH.products := by
  have h := sweeper_cancels_overdue_frame wsH 200 50
  exact ⟨h.1 ⟨7, 1, "on-hold", 20, 100, 100⟩ (by decide) (by decide) (by decide),
    h.2.2.2.1, h.2.2.2.2.1⟩

/-- C9: checkout prices and stock-checks every cart line — variant or not —
against the BASE product: its outcome is unchanged when the variants table is
replaced arbitrarily or when every line's variant id is erased; every
resolved line carries the published base product's price and stock; the
created order lines record only (order, product, quantity, unit price, time)
— no variant; while add-to-cart's variant branch validated the very same line
against the variant's own stock. -/
theorem checkout_ignores_variants (st : DBState) (uid now : Int) :
    (∀ vs, (Checkout { st with product_variants := vs } uid now).outcome =
      (Checkout st uid now).outcome) ∧
    ((Checkout { st with cart_items := st.cart_items.map eraseVariantId }
        uid now).outcome = (Checkout st uid now).outcome) ∧
    (∀ it ∈ checkoutLines st uid,
      ∃ ci ∈ st.cart_items, ci.product_id = it.ProductID ∧
        ci.quantity = it.Quantity ∧
        ∃ p ∈ st.products, p.id = it.ProductID ∧ p.status = "published" ∧
          p.price_to_tts = it.Price ∧ p.stock_quantity = it.Stock) ∧
    (∀ oid stat tot, (Checkout st uid now).outcome = CheckoutOutcome.ok oid stat tot →
      (Checkout st uid now).state.order_items = st.order_items ++
        (checkoutLines st uid).map
          (fun it => ⟨oid, it.ProductID, it.Quantity, it.Price, now⟩)) ∧
    (∀ input : AddToCartInput, ∀ vr : ProductVariant, ∀ cart : Cart,
      0 < input.quantity → usesVariant input = true →
      st.carts.find? (fun ct => ct.user_id = uid) = some cart →
      st.product_variants.find? (fun v =>
        some v.id = input.variant_id ∧ v.product_id = input.product_id) = some vr →
      ((vr.stock_quantity < input.quantity →
          (AddToCart st uid input).outcome = AddToCartOutcome.insufficientStock) ∧
        (¬ vr.stock_quantity < input.quantity →
          (AddToCart st uid input).outcome = AddToCartOutcome.ok))) := by
  refine ⟨?_, ?_, ?_, ?_, ?_⟩
  · intro vs
    cases hfind : st.carts.find? (fun ct => ct.user_id = uid) with
    | none =>
        have hfind2 : ({ st with product_variants := vs } : DBState).carts.find?
            (fun ct => ct.user_id = uid) = none := hfind
        simp only [Checkout, hfind, hfind2]
    | some cart =>
        have hfind2 : ({ st with product_variants := vs } : DBState).carts.find?
            (fun ct => ct.user_id = uid) = some cart := hfind
        have hq : checkoutCartItemsQuery { st with product_variants := vs } cart.id =
            checkoutCartItemsQuery st cart.id := rfl
        simp only [Checkout, hfind, hfind2, hq]
        cases hscan : scanCartItems (checkoutCartItemsQuery st cart.id) with
        | error pid => rfl
        | ok pr =>
            obtain ⟨items, total⟩ := pr
            by_cases hemp : items = []
            · simp only [if_pos hemp]
            · simp only [if_neg hemp]
              rfl
  · cases hfind : st.carts.find? (fun ct => ct.user_id = uid) with
    | none =>
        have hfind2 : ({ st with cart_items := st.cart_items.map eraseVariantId } :
            DBState).carts.find? (fun ct => ct.user_id = uid) = none := hfind
        simp only [Checkout, hfind, hfind2]
    | some cart =>
        have hfind2 : ({ st with cart_items := st.cart_items.map eraseVariantId } :
            DBState).carts.find? (fun ct => ct.user_id = uid) = some cart := hfind
        have hq := checkoutCartItemsQuery_erase_variant st cart.id
        simp only [Checkout, hfind, hfind2, hq]
        cases hscan : scanCartItems (checkoutCartItemsQuery st cart.id) with
        | error pid => rfl
        | ok pr =>
            obtain ⟨items, total⟩ := pr
            by_cases hemp : items = []
            · simp only [if_pos hemp]
            · simp only [if_neg hemp]
              rfl
  · intro it hit
    rw [checkoutLines] at hit
    cases hfind : st.carts.find? (fun ct => ct.user_id = uid) with
    | none => rw [hfind] at hit; simp at hit
    | some cart =>
        rw [hfind] at hit
        obtain ⟨ci, hci, -, hpid, hqty, p, hp, hid, hstatus, hprice, hstock⟩ :=
          checkoutCartItemsQuery_mem hit
        exact ⟨ci, hci, hpid, hqty, p, hp, hid, hstatus, hprice, hstock⟩
  · intro oid stat tot h
    obtain ⟨cart, hfind, -, -, -, hoid, -, hstate⟩ := Checkout_ok_state h
    rw [hstate]
    simp [checkoutFinalState, checkoutLines_of_find hfind, hoid]
  · intro input vr cart hq0 hu hfc hfv
    have hgoc : getOrCreateCartID st uid = (cart.id, st) := by
      simp [getOrCreateCartID, hfc]
    have hq2 : ¬ (input.quantity ≤ 0) := by omega
    constructor
    · intro hlt
      simp only [AddToCart, hgoc]
      rw [if_neg hq2, if_pos hu, hfv]
      simp only [Option.map_some', if_pos hlt]
    · intro hge
      simp only [AddToCart, hgoc]
      rw [if_neg hq2, if_pos hu, hfv]
      simp only [Option.map_some', if_neg hge]
      cases hline : st.cart_items.find? (cartLineMatches input cart.id) with
      | some c => simp only [hline]
      | none => simp only [hline]

theorem checkout_ignores_variants_witness :
    (Checkout { wsI with product_variants := [] } 1 100).outcome =
      (Checkout wsI 1 100).outcome ∧
    (AddToCart wsI 1 ⟨1, some 4, 2⟩).outcome =
      AddToCartOutcome.insufficientStock := by
  have h := checkout_ignores_variants wsI 1 100
  refine ⟨h.1 [], ?_⟩
  exact (h.2.2.2.2 ⟨1, some 4, 2⟩ ⟨4, 1, 3, 1⟩ ⟨1, 1⟩
    (by decide) (by decide) (by decide) (by decide)).1 (by decide)

/-- C10: checkout includes in the order and its total only the cart lines
whose product is "published", yet on success it deletes every line of the
cart — lines of products in any other status are silently discarded; and a
cart whose lines all reference unpublished products fails with the
no-published-products error, purchasing nothing. -/
theorem checkout_published_only_clears_cart (st : DBState) (uid now : Int) :
    (∀ it ∈ checkoutLines st uid,
      ∃ p ∈ st.products, p.id = it.ProductID ∧ p.status = "published") ∧
    (∀ oid stat tot cart,
      (Checkout st uid now).outcome = CheckoutOutcome.ok oid stat tot →
      st.carts.find? (fun ct => ct.user_id = uid) = some cart →
      (Checkout st uid now).state.cart_items =
        st.cart_items.filter (fun ci => ¬ ci.cart_id = cart.id) ∧
      tot = ((checkoutLines st uid).map (fun it => it.Price * it.Quantity)).sum ∧
      (Checkout st uid now).state.order_items = st.order_items ++
        (checkoutLines st uid).map
          (fun it => ⟨oid, it.ProductID, it.Quantity, it.Price, now⟩)) ∧
    (∀ cart, st.carts.find? (fun ct => ct.user_id = uid) = some cart →
      checkoutCartItemsQuery st cart.id = [] →
      (Checkout st uid now).outcome = CheckoutOutcome.noPublishedItems ∧
      (Checkout st uid now).state = st) := by
  refine ⟨?_, ?_, ?_⟩
  · intro it hit
    rw [checkoutLines] at hit
    cases hfind : st.carts.find? (fun ct => ct.user_id = uid) with
    | none => rw [hfind] at hit; simp at hit
    | some cart =>
        rw [hfind] at hit
        obtain ⟨-, -, -, -, -, p, hp, hid, hstatus, -, -⟩ :=
          checkoutCartItemsQuery_mem hit
        exact ⟨p, hp, hid, hstatus⟩
  · intro oid stat tot cart h hfind
    obtain ⟨cart2, hfind2, -, -, htot, hoid, -, hstate⟩ := Checkout_ok_state h
    have hcc : cart2 = cart := by
      have := hfind2.symm.trans hfind
      exact Option.some.inj this
    subst hcc
    rw [hstate]
    refine ⟨by simp [checkoutFinalState], ?_, ?_⟩
    · rw [htot, checkoutLines_of_find hfind2]
    · simp [checkoutFinalState, checkoutLines_of_find hfind2, hoid]
  · intro cart hfind hemp
    constructor
    · simp [Checkout, hfind, hemp, scanCartItems]
    · simp [Checkout, hfind, hemp, scanCartItems]

theorem checkout_published_only_clears_cart_witness :
    (Checkout wsJ 1 100).state.cart_items = [] ∧
    (Checkout wsK 1 100).outcome = CheckoutOutcome.noPublishedItems ∧
    (Checkout wsK 1 100).state = wsK := by
  have hJ := checkout_published_only_clears_cart wsJ 1 100
  have hK := checkout_published_only_clears_cart wsK 1 100
  have h2 := hJ.2.1 7 "processing" 20 ⟨1, 1⟩ (by decide) (by decide)
  have h3 := hK.2.2 ⟨1, 1⟩ (by decide) (by decide)
  exact ⟨h2.1.trans (by decide), h3.1, h3.2⟩

end TapToSell
